import Mathlib

/-!
Verification of the cachebox plain `Cache` class (src/src/classes/cache.rs)
against its specification.

The binding layer `classes::cache::Cache` is embedded directly from
src/src/classes/cache.rs.  The engine it wraps (`internal::Cache`) and the
`base` module (`KeyValuePair`, memory-size constants, snapshot iterators) are
not part of the provided sources; they are modelled from the specification
(sections 3, 4.1, 4.2, 4.4, 6), as marked on each definition.

Keys and values are opaque host-language handles; we model them as type
parameters `K` and `V`.  Hash identifiers are `Int` (Rust `isize`).
-/

set_option linter.unusedVariables false

/-- Modelled from the spec: error kind `CapacityExceeded` of section 7
(the engine error type of `internal::Cache`, not under src/). -/
inductive CacheError where
  | capacityExceeded
  deriving DecidableEq, Repr

/-- Host-side error signals produced by the binding layer in
src/src/classes/cache.rs: `PyKeyError` and `PyNotImplementedError`. -/
inductive PyErr where
  | keyError
  | notImplemented
  deriving DecidableEq, Repr

/-- Modelled from the spec: `base::KeyValuePair` (not under src/), the pair of
opaque key and value handles stored per entry (section 3, Entry). -/
structure KeyValuePair (K V : Type) where
  key : K
  value : V
  deriving DecidableEq, Repr

/-- Modelled from the spec: the state of `internal::Cache` for the plain
(no-eviction-policy) variant (section 3, CacheState): a table mapping integer
hash identifiers to entries, the `maxsize` bound (0 = unbounded) and the
currently allocated slot count.  The table is represented as an association
list with at most one binding per identifier (inserts check presence first). -/
structure Cache (K V : Type) where
  maxsize : Nat
  table : List (Int × KeyValuePair K V)
  cap : Nat
  deriving DecidableEq, Repr

namespace Cache

variable {K V E : Type}

/-- Modelled from the spec: `internal::Cache::new(maxsize, capacity)`
(section 6, Construction): empty table. -/
def new (K V : Type) (maxsize capacity : Nat) : Cache K V :=
  { maxsize := maxsize, table := [], cap := capacity }

/-- Modelled from the spec: `len()` (section 4.1). -/
def len (c : Cache K V) : Nat :=
  c.table.length

/-- Modelled from the spec: `is_empty()` (section 4.1). -/
def is_empty (c : Cache K V) : Bool :=
  c.table.isEmpty

/-- Modelled from the spec: `capacity()` reports the current allocated slot
count (section 4.1 / 4.2). -/
def capacity (c : Cache K V) : Nat :=
  c.cap

/-- Modelled from the spec: `contains_key(id)` (section 4.1, `contains`). -/
def contains_key (c : Cache K V) (id : Int) : Bool :=
  c.table.any (fun p => p.1 == id)

/-- Modelled from the spec: `get(id) -> Option<&Entry>` (section 4.1),
read-only for the plain policy (no access bookkeeping). -/
def get (c : Cache K V) (id : Int) : Option (KeyValuePair K V) :=
  (c.table.find? (fun p => p.1 == id)).map (fun p => p.2)

/-- Modelled from the spec: `remove(id) -> Option<Entry>` (section 4.1):
deletes the binding for `id` and returns the removed entry; absent keys leave
the cache untouched.  We return the post-state next to the removed entry. -/
def remove (c : Cache K V) (id : Int) : Cache K V × Option (KeyValuePair K V) :=
  match c.table.find? (fun p => p.1 == id) with
  | none => (c, none)
  | some p => ({ c with table := c.table.filter (fun q => q.1 != id) }, some p.2)

/-- Modelled from the spec: `insert(id, key_handle, value_handle)`
(section 4.1): if `id` is already present, the value handle is replaced in
place (key handle retained — first-writer key identity wins) and the previous
entry is returned; if `id` is absent and the table is at nonzero `maxsize`,
the plain (no-policy) variant fails with `CapacityExceeded` and performs no
mutation; otherwise the new entry is appended and the allocation grows as
needed. -/
def insert (c : Cache K V) (id : Int) (kv : KeyValuePair K V) :
    Except CacheError (Cache K V × Option (KeyValuePair K V)) :=
  match c.table.find? (fun p => p.1 == id) with
  | some p =>
      Except.ok
        ({ c with table :=
            c.table.map (fun q => if q.1 == id then (q.1, ⟨q.2.key, kv.value⟩) else q) },
         some p.2)
  | none =>
      if c.maxsize ≠ 0 ∧ c.maxsize ≤ c.table.length then
        Except.error CacheError.capacityExceeded
      else
        Except.ok
          ({ c with table := c.table ++ [(id, kv)], cap := max c.cap (c.table.length + 1) },
           none)

/-- Modelled from the spec: `setdefault(id, key_handle, default_value_handle)`
(section 4.4): returns the existing entry's value if present, otherwise
performs the standard insert (which may fail with `CapacityExceeded` for the
plain variant when full) and returns the inserted value. -/
def setdefault (c : Cache K V) (id : Int) (kv : KeyValuePair K V) :
    Except CacheError (Cache K V × V) :=
  match c.get id with
  | some e => Except.ok (c, e.value)
  | none =>
      match c.insert id kv with
      | Except.ok (c', _) => Except.ok (c', kv.value)
      | Except.error e => Except.error e

/-- Modelled from the spec: `clear(reuse)` (section 3, Lifecycle): resets the
table to empty; with `reuse` the allocated capacity is retained, otherwise
storage is deallocated. -/
def clear (c : Cache K V) (reuse : Bool) : Cache K V :=
  { c with table := [], cap := if reuse then c.cap else 0 }

/-- Modelled from the spec: bulk `update` (section 4.4): the source sequence
yields either an item `(id, entry)` or a collaborator error `E` (for example a
failed hash computation); each item is applied through the single-item insert
path in order; the first failure (collaborator error, or `CapacityExceeded`
from the insert path) stops processing, keeping all already applied items.
The post-state and the reported failure (if any) are returned. -/
def update : Cache K V → List (Except E (Int × KeyValuePair K V)) →
    Cache K V × Option (E ⊕ CacheError)
  | c, [] => (c, none)
  | c, (Except.error e) :: _ => (c, some (Sum.inl e))
  | c, (Except.ok (id, kv)) :: rest =>
      match c.insert id kv with
      | Except.error ce => (c, some (Sum.inr ce))
      | Except.ok (c', _) => Cache.update c' rest

/-- Hash identifiers stored in the table, in table order; this is
`internal::Cache::keys()` as used by `Cache::__eq__`/`__ne__`
(src/src/classes/cache.rs lines 106-118).  Modelled from the spec for the
engine side (section 4.1). -/
def keysIds (c : Cache K V) : List Int :=
  c.table.map (fun p => p.1)

/-- `Cache::__eq__` from src/src/classes/cache.rs lines 106-111:
same `maxsize` and every key identifier of the left cache present in the
right cache. -/
def eq (c1 c2 : Cache K V) : Bool :=
  c1.maxsize == c2.maxsize && c1.keysIds.all (fun x => c2.contains_key x)

/-- `Cache::__ne__` from src/src/classes/cache.rs lines 113-118:
different `maxsize`, or every key identifier of the left cache absent from
the right cache. -/
def ne (c1 c2 : Cache K V) : Bool :=
  c1.maxsize != c2.maxsize || c1.keysIds.all (fun x => !(c2.contains_key x))

/-- `Cache::keys` snapshot contents (src/src/classes/cache.rs lines 130-138):
the key handles of all entries, collected from the table at call time. -/
def keysList (c : Cache K V) : List K :=
  c.table.map (fun p => p.2.key)

/-- `Cache::values` snapshot contents (src/src/classes/cache.rs lines
140-148): the value handles of all entries. -/
def valuesList (c : Cache K V) : List V :=
  c.table.map (fun p => p.2.value)

/-- `Cache::items` snapshot contents (src/src/classes/cache.rs lines
150-163): the key/value handle pairs of all entries. -/
def itemsList (c : Cache K V) : List (K × V) :=
  c.table.map (fun p => (p.2.key, p.2.value))

/-- `Cache::__iter__` snapshot contents (src/src/classes/cache.rs lines
120-128): identical to `keys` (key handles). -/
def iterList (c : Cache K V) : List K :=
  c.table.map (fun p => p.2.key)

/-- `Cache::__getitem__` from src/src/classes/cache.rs lines 74-81: the
stored value handle, or a `PyKeyError` when the identifier is absent. -/
def getitem (c : Cache K V) (id : Int) : Except PyErr V :=
  match c.get id with
  | some x => Except.ok x.value
  | none => Except.error PyErr.keyError

/-- `Cache::__delitem__` from src/src/classes/cache.rs lines 83-90: removes
the entry (returning the post-state), or a `PyKeyError` when absent. -/
def delitem (c : Cache K V) (id : Int) : Except PyErr (Cache K V) :=
  match c.remove id with
  | (c', some _) => Except.ok c'
  | (_, none) => Except.error PyErr.keyError

/-- `Cache::pop` from src/src/classes/cache.rs lines 184-197: removes and
returns the stored value when present; otherwise returns the supplied default
(`none` models Python `None`, the value when the default is omitted) and
leaves the cache unchanged. -/
def pop (c : Cache K V) (id : Int) (default : Option V) : Cache K V × Option V :=
  match c.remove id with
  | (c', some x) => (c', some x.value)
  | (_, none) => (c, default)

/-- `Cache::get` (binding-layer, with default) from src/src/classes/cache.rs
lines 219-232: the stored value when present, otherwise the supplied default
(`none` models Python `None`, the value when the default is omitted); named
`getDefault` here because `get` names the engine-side lookup. -/
def getDefault (c : Cache K V) (id : Int) (default : Option V) : Option V :=
  match c.get id with
  | some v => some v.value
  | none => default

/-- `Cache::popitem` from src/src/classes/cache.rs lines 234-238: always a
`PyNotImplementedError`; no state is read or produced. -/
def popitem (c : Cache K V) : Except PyErr Unit :=
  Except.error PyErr.notImplemented

end Cache

/-- Modelled from the spec: per-slot size of one hash identifier
(`base::ISIZE_MEMORY_SIZE`, not under src/): an `isize`, 8 bytes. -/
def ISIZE_MEMORY_SIZE : Nat := 8

/-- Modelled from the spec: size of one opaque object handle (section 6,
memory-size reporting counts two handle sizes per slot): 8 bytes. -/
def HANDLE_MEMORY_SIZE : Nat := 8

/-- Modelled from the spec: `base::PYOBJECT_MEMORY_SIZE` (not under src/),
the per-slot cost of the stored key and value handles: two handle sizes. -/
def PYOBJECT_MEMORY_SIZE : Nat := 2 * HANDLE_MEMORY_SIZE

/-- `Cache::__sizeof__` from src/src/classes/cache.rs lines 50-54:
`cap * ISIZE_MEMORY_SIZE + cap * PYOBJECT_MEMORY_SIZE + ISIZE_MEMORY_SIZE`. -/
def Cache.sizeof {K V : Type} (c : Cache K V) : Nat :=
  c.capacity * ISIZE_MEMORY_SIZE + c.capacity * PYOBJECT_MEMORY_SIZE + ISIZE_MEMORY_SIZE

/-- The mutating entry points of the binding layer used by the capacity
invariant: single insert, `setdefault`, bulk `update`, removal and `clear`. -/
inductive CacheOp (K V E : Type) where
  | insertOp (id : Int) (kv : KeyValuePair K V)
  | setdefaultOp (id : Int) (kv : KeyValuePair K V)
  | updateOp (items : List (Except E (Int × KeyValuePair K V)))
  | removeOp (id : Int)
  | clearOp (reuse : Bool)

/-- Applies one binding-layer operation, keeping the old state when the
operation fails (a failing insert/setdefault performs no mutation; a failing
update keeps its partial result). -/
def Cache.applyOp {K V E : Type} (c : Cache K V) : CacheOp K V E → Cache K V
  | CacheOp.insertOp id kv =>
      match c.insert id kv with
      | Except.ok (c', _) => c'
      | Except.error _ => c
  | CacheOp.setdefaultOp id kv =>
      match c.setdefault id kv with
      | Except.ok (c', _) => c'
      | Except.error _ => c
  | CacheOp.updateOp items => (Cache.update c items).1
  | CacheOp.removeOp id => (c.remove id).1
  | CacheOp.clearOp reuse => c.clear reuse

/-- Runs a sequence of binding-layer operations from a starting state. -/
def Cache.runOps {K V E : Type} (c : Cache K V) (ops : List (CacheOp K V E)) : Cache K V :=
  ops.foldl Cache.applyOp c

/-- A materialized one-shot iteration snapshot (`base::VecOneValueIterator`
or `base::VecItemsIterator`); modelled from the spec (section 6, iteration
views) since `base` is not under src/. -/
inductive SnapSeq (K V : Type) where
  | keysSeq (view : List K)
  | valuesSeq (view : List V)
  | itemsSeq (view : List (K × V))
  deriving DecidableEq, Repr

/-- A cache together with the snapshot sequences handed out so far. -/
structure World (K V : Type) where
  cache : Cache K V
  snaps : List (SnapSeq K V)
  deriving DecidableEq, Repr

/-- Operations observable through the iteration-view interface: the two
mutations (insert, remove) and the four snapshot producers. -/
inductive WOp (K V : Type) where
  | insertW (id : Int) (kv : KeyValuePair K V)
  | removeW (id : Int)
  | keysW
  | valuesW
  | itemsW
  | iterW
  deriving DecidableEq, Repr

/-- One step of the iteration-view interface: mutations update the cache and
touch no existing snapshot; each view call materializes its entire sequence
from the table at call time and appends it to the handed-out snapshots. -/
def stepW {K V : Type} (w : World K V) : WOp K V → World K V
  | WOp.insertW id kv =>
      match w.cache.insert id kv with
      | Except.ok (c', _) => { w with cache := c' }
      | Except.error _ => w
  | WOp.removeW id => { w with cache := (w.cache.remove id).1 }
  | WOp.keysW => { w with snaps := w.snaps ++ [SnapSeq.keysSeq w.cache.keysList] }
  | WOp.valuesW => { w with snaps := w.snaps ++ [SnapSeq.valuesSeq w.cache.valuesList] }
  | WOp.itemsW => { w with snaps := w.snaps ++ [SnapSeq.itemsSeq w.cache.itemsList] }
  | WOp.iterW => { w with snaps := w.snaps ++ [SnapSeq.keysSeq w.cache.iterList] }

/-- Runs a sequence of iteration-view interface operations. -/
def runW {K V : Type} (w : World K V) (ops : List (WOp K V)) : World K V :=
  ops.foldl stepW w

/-!  Helper lemmas. -/

/-- Presence as tested by `contains_key` is equivalent to `find?` succeeding
on the table. -/
theorem Cache.contains_key_true_find? {K V : Type} {c : Cache K V} {id : Int}
    (h : c.contains_key id = true) :
    ∃ p, c.table.find? (fun q => q.1 == id) = some p := by
  rw [← Option.isSome_iff_exists]
  rw [List.find?_isSome]
  simpa [Cache.contains_key, List.any_eq_true] using h

/-- Absence as tested by `contains_key` makes `find?` fail on the table. -/
theorem Cache.contains_key_false_find? {K V : Type} {c : Cache K V} {id : Int}
    (h : c.contains_key id = false) :
    c.table.find? (fun q => q.1 == id) = none := by
  rw [List.find?_eq_none]
  intro x hx
  simp only [Cache.contains_key, List.any_eq_false] at h
  simpa using h x hx

/-- After `remove id`, the identifier `id` is no longer present. -/
theorem Cache.contains_key_remove_self {K V : Type} (c : Cache K V) (id : Int) :
    ((c.remove id).1).contains_key id = false := by
  unfold Cache.remove
  cases hf : c.table.find? (fun p => p.1 == id) with
  | none =>
      simp only [Cache.contains_key, List.any_eq_false]
      intro x hx
      have := List.find?_eq_none.mp hf x hx
      simpa using this
  | some p =>
      simp only [Cache.contains_key, List.any_eq_false]
      intro x hx
      have hx' := List.mem_filter.mp hx
      simpa [bne] using hx'.2

/-- `find?` on a table whose binding at `id` had its value replaced. -/
theorem Cache.find?_map_replaceValue {K V : Type} (id : Int) (nv : V) :
    ∀ l : List (Int × KeyValuePair K V),
      (l.map (fun q => if q.1 == id then (q.1, ⟨q.2.key, nv⟩) else q)).find?
          (fun p => p.1 == id)
        = (l.find? (fun p => p.1 == id)).map
            (fun p => (p.1, (⟨p.2.key, nv⟩ : KeyValuePair K V)))
  | [] => rfl
  | q :: l => by
      by_cases hq : q.1 = id
      · simp [List.find?_cons, hq, -List.find?_map]
      · rw [List.map_cons]
        have h1 : (if q.1 == id then (q.1, (⟨q.2.key, nv⟩ : KeyValuePair K V)) else q) = q := by
          simp [hq]
        rw [h1, List.find?_cons_of_neg, List.find?_cons_of_neg]
        · exact Cache.find?_map_replaceValue id nv l
        · simpa using hq
        · simpa using hq

/-- `claim C8`: `popitem` always fails with the "not implemented" signal,
for every cache state; its result carries no entry and no new state. -/
theorem claim_C8 (c : Cache Nat Nat) :
    c.popitem = Except.error PyErr.notImplemented := rfl

/-- `claim C9`: the memory-size report equals
capacity × (identifier size + two handle sizes) + identifier size. -/
theorem claim_C9 (c : Cache Nat Nat) :
    c.sizeof = c.capacity * (ISIZE_MEMORY_SIZE + 2 * HANDLE_MEMORY_SIZE) + ISIZE_MEMORY_SIZE := by
  simp only [Cache.sizeof, ISIZE_MEMORY_SIZE, PYOBJECT_MEMORY_SIZE, HANDLE_MEMORY_SIZE]
  ring

/-- `claim C3`: `X == Y` holds exactly when the maxsizes agree and every key
identifier of `X` is present in `Y` (values and extra keys of `Y` ignored),
and the relation is asymmetric: a concrete pair has `X == Y` true while
`Y == X` is false. -/
theorem claim_C3 :
    (∀ X Y : Cache Nat Nat, Cache.eq X Y = true ↔
        (X.maxsize = Y.maxsize ∧ ∀ id ∈ X.keysIds, Y.contains_key id = true)) ∧
    (∃ X Y : Cache Nat Nat, Cache.eq X Y = true ∧ Cache.eq Y X = false) := by
  constructor
  · intro X Y
    simp [Cache.eq, List.all_eq_true]
  · refine ⟨⟨5, [(1, ⟨1, 1⟩), (2, ⟨2, 2⟩)], 0⟩,
      ⟨5, [(1, ⟨1, 1⟩), (2, ⟨2, 2⟩), (3, ⟨3, 3⟩)], 0⟩, ?_, ?_⟩ <;> decide

/-- `claim C4`: `X != Y` holds exactly when the maxsizes differ or every key
identifier of `X` is absent from `Y`; on a concrete pair with equal maxsize
and partially overlapping keys both `X == Y` and `X != Y` are false, so
inequality is not the negation of equality. -/
theorem claim_C4 :
    (∀ X Y : Cache Nat Nat, Cache.ne X Y = true ↔
        (X.maxsize ≠ Y.maxsize ∨ ∀ id ∈ X.keysIds, Y.contains_key id = false)) ∧
    (∃ X Y : Cache Nat Nat, Cache.eq X Y = false ∧ Cache.ne X Y = false) := by
  constructor
  · intro X Y
    simp [Cache.ne, List.all_eq_true]
  · refine ⟨⟨5, [(1, ⟨1, 1⟩), (2, ⟨2, 2⟩)], 0⟩,
      ⟨5, [(1, ⟨1, 1⟩), (3, ⟨3, 3⟩)], 0⟩, ?_, ?_⟩ <;> decide

/-- `claim C7`: for an absent identifier, subscript read and subscript delete
both raise the not-found (KeyError) signal; for a present identifier,
subscript read returns the stored value and subscript delete removes the
entry without error. -/
theorem claim_C7 (c : Cache Nat Nat) (id : Int) :
    (c.contains_key id = false →
        c.getitem id = Except.error PyErr.keyError ∧
        c.delitem id = Except.error PyErr.keyError) ∧
    (c.contains_key id = true →
        ∃ e, c.get id = some e ∧ c.getitem id = Except.ok e.value ∧
          c.delitem id = Except.ok ((c.remove id).1) ∧
          ((c.remove id).1).contains_key id = false) := by
  constructor
  · intro habs
    have hf := Cache.contains_key_false_find? habs
    constructor
    · simp [Cache.getitem, Cache.get, hf]
    · simp [Cache.delitem, Cache.remove, hf]
  · intro hpres
    obtain ⟨p, hp⟩ := Cache.contains_key_true_find? hpres
    refine ⟨p.2, ?_, ?_, ?_, Cache.contains_key_remove_self c id⟩
    · simp [Cache.get, hp]
    · simp [Cache.getitem, Cache.get, hp]
    · simp [Cache.delitem, Cache.remove, hp]

/-- `claim C10`: for an absent identifier, `get(key, default)` and
`pop(key, default)` both return the supplied default (None when omitted)
rather than signalling not-found, with `pop` leaving the cache unchanged;
for a present identifier, `get` returns the stored value and `pop` removes
the entry and returns its value. -/
theorem claim_C10 (c : Cache Nat Nat) (id : Int) (d : Option Nat) :
    (c.contains_key id = false →
        c.getDefault id d = d ∧ c.pop id d = (c, d)) ∧
    (c.contains_key id = true →
        ∃ e, c.get id = some e ∧ c.getDefault id d = some e.value ∧
          c.pop id d = ((c.remove id).1, some e.value) ∧
          ((c.remove id).1).contains_key id = false) := by
  constructor
  · intro habs
    have hf := Cache.contains_key_false_find? habs
    constructor
    · simp [Cache.getDefault, Cache.get, hf]
    · simp [Cache.pop, Cache.remove, hf]
  · intro hpres
    obtain ⟨p, hp⟩ := Cache.contains_key_true_find? hpres
    refine ⟨p.2, ?_, ?_, ?_, Cache.contains_key_remove_self c id⟩
    · simp [Cache.get, hp]
    · simp [Cache.getDefault, Cache.get, hp]
    · simp [Cache.pop, Cache.remove, hp]

/-- `claim C2`: for the plain cache at full nonzero capacity, inserting an
absent identifier fails with `CapacityExceeded` (no post-state is produced:
no mutation), while inserting a present identifier succeeds, returns the
previous entry, replaces only that entry's value and preserves the key set
and length. -/
theorem claim_C2 (c : Cache Nat Nat) (id : Int) (kv : KeyValuePair Nat Nat)
    (hm : c.maxsize ≠ 0) (hfull : c.len = c.maxsize) :
    (c.contains_key id = false →
        c.insert id kv = Except.error CacheError.capacityExceeded) ∧
    (c.contains_key id = true →
        ∃ c', c.insert id kv = Except.ok (c', c.get id) ∧
          (c'.get id).map KeyValuePair.value = some kv.value ∧
          c'.len = c.len ∧ c'.maxsize = c.maxsize ∧ c'.keysIds = c.keysIds) := by
  constructor
  · intro habs
    have hf := Cache.contains_key_false_find? habs
    unfold Cache.insert
    rw [hf]
    rw [if_pos ⟨hm, le_of_eq hfull.symm⟩]
  · intro hpres
    obtain ⟨p, hp⟩ := Cache.contains_key_true_find? hpres
    refine ⟨⟨c.maxsize,
        c.table.map (fun q => if q.1 == id then (q.1, ⟨q.2.key, kv.value⟩) else q),
        c.cap⟩,
      ?_, ?_, ?_, rfl, ?_⟩
    · unfold Cache.insert
      rw [hp]
      simp [Cache.get, hp]
    · simp only [Cache.get]
      rw [Cache.find?_map_replaceValue id kv.value c.table, hp]
      rfl
    · simp [Cache.len]
    · simp only [Cache.keysIds, List.map_map]
      apply List.map_congr_left
      intro a ha
      by_cases h : a.1 = id <;> simp [h]

/-- A single interface step never changes a snapshot that was already handed
out: mutations leave the snapshot list untouched, and view calls only append
to it. -/
theorem stepW_snaps_get {K V : Type} (w : World K V) (op : WOp K V) (i : Nat)
    (s : SnapSeq K V) (h : w.snaps[i]? = some s) :
    (stepW w op).snaps[i]? = some s := by
  have hlt : i < w.snaps.length := by
    rcases List.getElem?_eq_some.mp h with ⟨hl, _⟩
    exact hl
  cases op with
  | insertW id kv =>
      simp only [stepW]
      cases hins : w.cache.insert id kv with
      | error ce => exact h
      | ok r => obtain ⟨c', pr⟩ := r; exact h
  | removeW id => exact h
  | keysW =>
      simp only [stepW]
      rw [List.getElem?_append_left hlt]
      exact h
  | valuesW =>
      simp only [stepW]
      rw [List.getElem?_append_left hlt]
      exact h
  | itemsW =>
      simp only [stepW]
      rw [List.getElem?_append_left hlt]
      exact h
  | iterW =>
      simp only [stepW]
      rw [List.getElem?_append_left hlt]
      exact h

/-- `claim C5`: every iteration view materializes its sequence from the table
at call time (`stepW`: each view op appends `keysList`/`valuesList`/
`itemsList`/`iterList` of the current table), and a sequence obtained before
any further operations — in particular inserts and removes — keeps exactly
its contents and hence its length. -/
theorem claim_C5 (w : World Nat Nat) (i : Nat) (s : SnapSeq Nat Nat)
    (ops : List (WOp Nat Nat)) (h : w.snaps[i]? = some s) :
    (runW w ops).snaps[i]? = some s := by
  induction ops generalizing w with
  | nil => exact h
  | cons op ops ih => exact ih (stepW w op) (stepW_snaps_get w op i s h)

/-- Closed instance of `claim C5`: a keys snapshot survives an insert and a
remove unchanged. -/
theorem claim_C5_witness :
    (runW (World.mk (Cache.mk 2 [((1 : Int), (⟨1, 10⟩ : KeyValuePair Nat Nat))] 1)
          [SnapSeq.keysSeq [1]])
        [WOp.insertW 2 ⟨2, 20⟩, WOp.removeW 1]).snaps[0]? =
      some (SnapSeq.keysSeq [1]) :=
  claim_C5 (World.mk (Cache.mk 2 [(1, ⟨1, 10⟩)] 1) [SnapSeq.keysSeq [1]]) 0
    (SnapSeq.keysSeq [1]) [WOp.insertW 2 ⟨2, 20⟩, WOp.removeW 1] (by decide)

/-- `claim C6`: bulk `update` is fail-fast without rollback: if the items
seen so far all applied successfully and the next item's production fails,
the result is exactly the state after the already-applied prefix, the
failure is reported, and the remaining items are not processed. -/
theorem claim_C6 {E : Type} (c : Cache Nat Nat)
    (pre : List (Int × KeyValuePair Nat Nat)) (e : E)
    (rest : List (Except E (Int × KeyValuePair Nat Nat))) (c' : Cache Nat Nat)
    (h : Cache.update c (pre.map Except.ok) =
      ((c', none) : Cache Nat Nat × Option (E ⊕ CacheError))) :
    Cache.update c (pre.map Except.ok ++ Except.error e :: rest) =
      (c', some (Sum.inl e)) := by
  induction pre generalizing c with
  | nil =>
      simp only [List.map_nil, Cache.update, Prod.mk.injEq] at h
      rw [List.map_nil, List.nil_append]
      rw [h.1]
      rfl
  | cons hd tl ih =>
      obtain ⟨id, kv⟩ := hd
      simp only [List.map_cons, List.cons_append, Cache.update] at h ⊢
      cases hins : c.insert id kv with
      | error ce =>
          rw [hins] at h
          simp at h
      | ok r =>
          obtain ⟨c'', pr⟩ := r
          rw [hins] at h
          exact ih c'' h

/-- Closed instance of `claim C6`: one applied item, then a collaborator
failure; the applied item stays, the error is reported, the tail is not
processed. -/
theorem claim_C6_witness :
    Cache.update (Cache.new Nat Nat 0 0)
        (([((1 : Int), (⟨1, 10⟩ : KeyValuePair Nat Nat))].map Except.ok) ++
          Except.error () :: [Except.ok (2, ⟨2, 20⟩)]) =
      (Cache.mk 0 [(1, ⟨1, 10⟩)] 1, some (Sum.inl ())) :=
  claim_C6 (Cache.new Nat Nat 0 0) [(1, ⟨1, 10⟩)] () [Except.ok (2, ⟨2, 20⟩)]
    (Cache.mk 0 [(1, ⟨1, 10⟩)] 1) (by rfl)

/-- A successful `insert` preserves `maxsize` and the capacity invariant. -/
theorem Cache.insert_ok_inv {K V : Type} {c c' : Cache K V} {id : Int}
    {kv : KeyValuePair K V} {pr : Option (KeyValuePair K V)}
    (h : c.insert id kv = Except.ok (c', pr)) :
    c'.maxsize = c.maxsize ∧
      (c.maxsize ≠ 0 → c.len ≤ c.maxsize → c'.len ≤ c.maxsize) := by
  unfold Cache.insert at h
  split at h
  · simp only [Except.ok.injEq, Prod.mk.injEq] at h
    obtain ⟨hc, _⟩ := h
    subst hc
    exact ⟨rfl, fun _ hl => by simpa [Cache.len] using hl⟩
  · split at h
    · cases h
    · rename_i hcond
      simp only [Except.ok.injEq, Prod.mk.injEq] at h
      obtain ⟨hc, _⟩ := h
      subst hc
      refine ⟨rfl, fun hm hl => ?_⟩
      push_neg at hcond
      have := hcond hm
      simp only [Cache.len, List.length_append, List.length_cons,
        List.length_nil] at *
      omega

/-- A successful `setdefault` preserves `maxsize` and the capacity
invariant. -/
theorem Cache.setdefault_ok_inv {K V : Type} {c c' : Cache K V} {id : Int}
    {kv : KeyValuePair K V} {v : V}
    (h : c.setdefault id kv = Except.ok (c', v)) :
    c'.maxsize = c.maxsize ∧
      (c.maxsize ≠ 0 → c.len ≤ c.maxsize → c'.len ≤ c.maxsize) := by
  unfold Cache.setdefault at h
  split at h
  · simp only [Except.ok.injEq, Prod.mk.injEq] at h
    obtain ⟨hc, _⟩ := h
    subst hc
    exact ⟨rfl, fun _ hl => hl⟩
  · split at h
    · rename_i c'' pr hins
      simp only [Except.ok.injEq, Prod.mk.injEq] at h
      obtain ⟨hc, _⟩ := h
      subst hc
      exact Cache.insert_ok_inv hins
    · cases h

/-- The post-state of bulk `update` preserves `maxsize` and the capacity
invariant (the partial result of a failing update included). -/
theorem Cache.update_fst_inv {K V E : Type} :
    ∀ (items : List (Except E (Int × KeyValuePair K V))) (c : Cache K V),
      (Cache.update c items).1.maxsize = c.maxsize ∧
        (c.maxsize ≠ 0 → c.len ≤ c.maxsize →
          (Cache.update c items).1.len ≤ c.maxsize)
  | [], c => ⟨rfl, fun _ hl => hl⟩
  | (Except.error e) :: rest, c => ⟨rfl, fun _ hl => hl⟩
  | (Except.ok (id, kv)) :: rest, c => by
      simp only [Cache.update]
      cases hins : c.insert id kv with
      | error ce => exact ⟨rfl, fun _ hl => hl⟩
      | ok r =>
          obtain ⟨c', pr⟩ := r
          have h1 := Cache.insert_ok_inv hins
          have h2 := Cache.update_fst_inv rest c'
          refine ⟨by rw [h2.1, h1.1], fun hm hl => ?_⟩
          have hm' : c'.maxsize ≠ 0 := by rw [h1.1]; exact hm
          have hl' : c'.len ≤ c'.maxsize := by rw [h1.1]; exact h1.2 hm hl
          have h3 := h2.2 hm' hl'
          rw [h1.1] at h3
          exact h3

/-- `remove` preserves `maxsize` and never grows the table. -/
theorem Cache.remove_fst_inv {K V : Type} (c : Cache K V) (id : Int) :
    ((c.remove id).1).maxsize = c.maxsize ∧ ((c.remove id).1).len ≤ c.len := by
  unfold Cache.remove
  split
  · exact ⟨rfl, le_refl _⟩
  · exact ⟨rfl, by simpa [Cache.len] using List.length_filter_le _ c.table⟩

/-- Every binding-layer operation preserves `maxsize` and the capacity
invariant. -/
theorem Cache.applyOp_inv {K V E : Type} (c : Cache K V) (op : CacheOp K V E) :
    (Cache.applyOp c op).maxsize = c.maxsize ∧
      (c.maxsize ≠ 0 → c.len ≤ c.maxsize →
        (Cache.applyOp c op).len ≤ c.maxsize) := by
  cases op with
  | insertOp id kv =>
      simp only [Cache.applyOp]
      split
      · rename_i c' pr hins
        exact Cache.insert_ok_inv hins
      · exact ⟨rfl, fun _ hl => hl⟩
  | setdefaultOp id kv =>
      simp only [Cache.applyOp]
      split
      · rename_i c' v hsd
        exact Cache.setdefault_ok_inv hsd
      · exact ⟨rfl, fun _ hl => hl⟩
  | updateOp items => exact Cache.update_fst_inv items c
  | removeOp id =>
      have h := Cache.remove_fst_inv c id
      exact ⟨h.1, fun _ hl => le_trans h.2 hl⟩
  | clearOp reuse =>
      exact ⟨rfl, fun _ _ => by simp [Cache.applyOp, Cache.clear, Cache.len]⟩

/-- `claim C1`: starting from any bounded cache satisfying the capacity
invariant (in particular a freshly constructed one), every sequence of
insert/setdefault/update/remove/clear operations keeps `maxsize` fixed and
keeps `len ≤ maxsize` — so the bound holds after every operation, every
prefix of a sequence being itself a sequence. -/
theorem claim_C1 {E : Type} (c : Cache Nat Nat) (ops : List (CacheOp Nat Nat E))
    (hm : c.maxsize ≠ 0) (hlen : c.len ≤ c.maxsize) :
    (Cache.runOps c ops).maxsize = c.maxsize ∧
      (Cache.runOps c ops).len ≤ c.maxsize := by
  induction ops generalizing c with
  | nil => exact ⟨rfl, hlen⟩
  | cons op ops ih =>
      have h := Cache.applyOp_inv c op
      have hm' : (Cache.applyOp c op).maxsize ≠ 0 := by rw [h.1]; exact hm
      have hl' : (Cache.applyOp c op).len ≤ (Cache.applyOp c op).maxsize := by
        rw [h.1]; exact h.2 hm hlen
      have h2 := ih (Cache.applyOp c op) hm' hl'
      rw [h.1] at h2
      exact h2

/-- Closed instance of `claim C1`: a freshly constructed cache with
`maxsize = 2`, driven through inserts past capacity plus the other mutating
operations, never exceeds two entries. -/
theorem claim_C1_witness :
    (Cache.runOps (Cache.new Nat Nat 2 0)
        ([CacheOp.insertOp 1 ⟨1, 10⟩, CacheOp.insertOp 2 ⟨2, 20⟩,
          CacheOp.insertOp 3 ⟨3, 30⟩, CacheOp.removeOp 1,
          CacheOp.setdefaultOp 4 ⟨4, 40⟩,
          CacheOp.updateOp [Except.ok (5, ⟨5, 50⟩), Except.ok (6, ⟨6, 60⟩)],
          CacheOp.clearOp true] : List (CacheOp Nat Nat Unit))).len ≤ 2 :=
  (claim_C1 (Cache.new Nat Nat 2 0)
    [CacheOp.insertOp 1 ⟨1, 10⟩, CacheOp.insertOp 2 ⟨2, 20⟩,
     CacheOp.insertOp 3 ⟨3, 30⟩, CacheOp.removeOp 1,
     CacheOp.setdefaultOp 4 ⟨4, 40⟩,
     CacheOp.updateOp [Except.ok (5, ⟨5, 50⟩), Except.ok (6, ⟨6, 60⟩)],
     CacheOp.clearOp true] (by decide) (by decide)).2

/-- Closed instance of `claim C2`: a full plain cache with `maxsize = 2`
rejects a third distinct key with `CapacityExceeded`. -/
theorem claim_C2_witness :
    (Cache.mk 2 [((1 : Int), (⟨1, 10⟩ : KeyValuePair Nat Nat)), (2, ⟨2, 20⟩)] 2).insert
        3 ⟨3, 30⟩ =
      Except.error CacheError.capacityExceeded :=
  (claim_C2 (Cache.mk 2 [(1, ⟨1, 10⟩), (2, ⟨2, 20⟩)] 2) 3 ⟨3, 30⟩ (by decide)
    (by decide)).1 (by decide)
